import Mathlib

/-!
Shallow embedding of the Thrift Python transport layer
(`lib/py/src/transport/TTransport.py`) and proofs about it.

Bytes are modelled as `List Nat` (each entry a byte value); an underlying
channel (socket / BytesIO) is modelled as the list of bytes it still has to
deliver, with `streamRead` in the role of its `read` method.  Python
exceptions are modelled by `Except TErr`.
-/

/-- Errors raised by the transport code:
`eof` models Python's builtin `EOFError` (the end-of-stream error raised by
`readAll` and `cstringio_refill`); `sendFail` models an exception raised by
an underlying `write`; `raised` models a generic exception raised by an
in-memory buffer append; `structError` models `struct.error` raised by
`pack` when a value does not fit the format; `transport ty msg` models
`TTransportException(type=ty, message=msg)` (NOT_OPEN = 1). -/
inductive TErr where
  | eof
  | sendFail
  | raised
  | structError
  | transport (ty : Nat) (msg : String)
deriving DecidableEq

/-- The `read` method of an underlying channel holding the byte list `s`:
it yields up to `k` of the next bytes (exactly `min k s.length` of them,
as a blocking socket or `BytesIO` does) together with the rest. -/
def streamRead (s : List Nat) (k : Nat) : List Nat × List Nat :=
  (s.take k, s.drop k)

/-- The `while have < sz` loop of `TTransportBase.readAll`, generic over the
underlying `read` (a pure function of the channel state in this model).
`need` is `sz - have`, `acc` is `buff`.  At each round it reads `need`
bytes; an empty chunk raises `EOFError`, otherwise the chunk is appended
and the loop continues until `have >= sz`. -/
def readAllLoop {σ : Type} (read : σ → Nat → List Nat × σ) (s : σ) (need : Nat)
    (acc : List Nat) : Except TErr (List Nat × σ) :=
  match need with
  | 0 => .ok (acc, s)
  | n + 1 =>
    if h : (read s (n + 1)).1 = [] then .error .eof
    else readAllLoop read (read s (n + 1)).2 (n + 1 - (read s (n + 1)).1.length)
      (acc ++ (read s (n + 1)).1)
termination_by need
decreasing_by
  have hpos : 0 < (read s (n + 1)).1.length := List.length_pos.mpr h
  omega

/-- `TTransportBase.readAll(sz)`: `sz` is a Python `int` (callers such as
`readFrame` pass values unpacked with the signed format `'!i'`).  When
`sz <= 0` the loop body never runs and the empty byte string is returned. -/
def readAll {σ : Type} (read : σ → Nat → List Nat × σ) (s : σ) (sz : Int) :
    Except TErr (List Nat × σ) :=
  if sz ≤ 0 then .ok ([], s) else readAllLoop read s sz.toNat []

theorem readAllLoop_ok_length {σ : Type} (read : σ → Nat → List Nat × σ)
    (hb : ∀ t k, ((read t k).1).length ≤ k) :
    ∀ need (s : σ) acc b s2,
      readAllLoop read s need acc = .ok (b, s2) → b.length = acc.length + need := by
  intro need
  induction need using Nat.strong_induction_on with
  | _ need ih =>
    intro s acc b s2 h
    match need with
    | 0 =>
      rw [readAllLoop] at h
      simp only [Except.ok.injEq, Prod.mk.injEq] at h
      simp [← h.1]
    | n + 1 =>
      rw [readAllLoop] at h
      split at h
      · exact absurd h (by simp)
      · rename_i hne
        have hpos : 0 < ((read s (n + 1)).1).length := List.length_pos.mpr hne
        have hle : ((read s (n + 1)).1).length ≤ n + 1 := hb s (n + 1)
        have := ih (n + 1 - ((read s (n + 1)).1).length) (by omega) _ _ _ _ h
        simp only [List.length_append] at this
        omega

theorem readAllLoop_error {σ : Type} (read : σ → Nat → List Nat × σ) :
    ∀ need (s : σ) acc e,
      readAllLoop read s need acc = .error e → e = .eof := by
  intro need
  induction need using Nat.strong_induction_on with
  | _ need ih =>
    intro s acc e h
    match need with
    | 0 => rw [readAllLoop] at h; exact absurd h (by simp)
    | n + 1 =>
      rw [readAllLoop] at h
      split at h
      · exact (Except.error.inj h).symm
      · rename_i hne
        have hpos : 0 < ((read s (n + 1)).1).length := List.length_pos.mpr hne
        exact ih (n + 1 - ((read s (n + 1)).1).length) (by omega) _ _ _ h

theorem readAllLoop_stream_nil (m : Nat) (acc : List Nat) (h : 0 < m) :
    readAllLoop streamRead ([] : List Nat) m acc = .error .eof := by
  match m with
  | m + 1 => rw [readAllLoop]; simp [streamRead]

theorem readAllLoop_stream_ok (s : List Nat) (n : Nat) (acc : List Nat)
    (h : n ≤ s.length) :
    readAllLoop streamRead s n acc = .ok (acc ++ s.take n, s.drop n) := by
  match n with
  | 0 => rw [readAllLoop]; simp
  | n + 1 =>
    have hlen : (s.take (n + 1)).length = n + 1 := by
      rw [List.length_take]; omega
    have hs : s.take (n + 1) ≠ [] := by
      intro he
      rw [he, List.length_nil] at hlen
      omega
    rw [readAllLoop]
    simp only [streamRead]
    rw [dif_neg hs, hlen, Nat.sub_self, readAllLoop]

theorem readAllLoop_stream_err (s : List Nat) (n : Nat) (acc : List Nat)
    (h : s.length < n) :
    readAllLoop streamRead s n acc = .error .eof := by
  match n with
  | n + 1 =>
    rcases s with _ | ⟨a, t⟩
    · exact readAllLoop_stream_nil _ _ (Nat.succ_pos n)
    · have hle : (a :: t).length ≤ n + 1 := Nat.le_of_lt h
      have htake : (a :: t).take (n + 1) = a :: t := List.take_of_length_le hle
      have hdrop : (a :: t).drop (n + 1) = [] := List.drop_eq_nil_of_le hle
      rw [readAllLoop]
      simp only [streamRead, htake, hdrop]
      rw [dif_neg (by simp)]
      exact readAllLoop_stream_nil _ _ (by simp at h ⊢; omega)

/-- Behaviour of the generic `readAll` over a channel holding byte list `s`:
if at least `sz` bytes are available it returns exactly the first `sz` bytes
and consumes them; otherwise it raises `EOFError`. -/
theorem readAll_stream_spec (s : List Nat) (sz : Int) :
    readAll streamRead s sz =
      if sz ≤ (s.length : Int) then .ok (s.take sz.toNat, s.drop sz.toNat)
      else .error .eof := by
  unfold readAll
  by_cases h0 : sz ≤ 0
  · rw [if_pos h0, if_pos (le_trans h0 (Int.natCast_nonneg _))]
    simp [Int.toNat_of_nonpos h0]
  · push_neg at h0
    rw [if_neg (not_le.mpr h0)]
    by_cases hle : sz ≤ (s.length : Int)
    · rw [if_pos hle]
      have hn : sz.toNat ≤ s.length := by omega
      simpa using readAllLoop_stream_ok s sz.toNat [] hn
    · rw [if_neg hle]
      exact readAllLoop_stream_err s sz.toNat [] (by omega)

theorem readAll_nonpos {σ : Type} (read : σ → Nat → List Nat × σ) (s : σ)
    (sz : Int) (h : sz ≤ 0) : readAll read s sz = .ok ([], s) := by
  unfold readAll; rw [if_pos h]

theorem readAll_ok_length {σ : Type} (read : σ → Nat → List Nat × σ)
    (hb : ∀ t k, ((read t k).1).length ≤ k) (s : σ) (sz : Int) (b : List Nat)
    (s2 : σ) (h : readAll read s sz = .ok (b, s2)) : b.length = sz.toNat := by
  unfold readAll at h
  split at h
  · rename_i h0
    simp only [Except.ok.injEq, Prod.mk.injEq] at h
    rw [← h.1]
    simp [Int.toNat_of_nonpos h0]
  · simpa using readAllLoop_ok_length read hb sz.toNat s [] b s2 h

theorem readAll_error {σ : Type} (read : σ → Nat → List Nat × σ) (s : σ)
    (sz : Int) (e : TErr) (h : readAll read s sz = .error e) : e = .eof := by
  unfold readAll at h
  split at h
  · exact absurd h (by simp)
  · exact readAllLoop_error read _ _ _ _ h

/-- The 4-byte big-endian byte string written by `struct.pack` for a 32-bit
value whose two's-complement representative is `n` (with `n < 2 ^ 32`). -/
def encodeU32BE (n : Nat) : List Nat :=
  [n / 2 ^ 24 % 256, n / 2 ^ 16 % 256, n / 2 ^ 8 % 256, n % 256]

/-- Big-endian unsigned 32-bit decoding of a 4-byte string (the `I` field of
`struct.unpack(">BI", ...)`); it is only ever applied to 4-byte strings. -/
def decodeU32BE (b : List Nat) : Nat :=
  match b with
  | [b0, b1, b2, b3] => b0 * 2 ^ 24 + b1 * 2 ^ 16 + b2 * 2 ^ 8 + b3
  | _ => 0

/-- Big-endian SIGNED 32-bit decoding (`struct.unpack("!i", b)`), as used by
`TFramedTransport.readFrame` and `TSaslClientTransport._read_frame`. -/
def decodeI32BE (b : List Nat) : Int :=
  if decodeU32BE b < 2 ^ 31 then (decodeU32BE b : Int)
  else (decodeU32BE b : Int) - 2 ^ 32

/-- `struct.pack("!i", wsz)` applied to a frame length (a non-negative
Python int, as both call sites pass a `len(...)`): 4-byte big-endian
encoding, or `struct.error` (modelled as `none`) when the value exceeds the
signed 32-bit maximum. -/
def packFrameLen (wsz : Nat) : Option (List Nat) :=
  if wsz < 2 ^ 31 then some (encodeU32BE wsz) else none

theorem encodeU32BE_length (n : Nat) : (encodeU32BE n).length = 4 := rfl

theorem decodeU32BE_encodeU32BE (n : Nat) (h : n < 2 ^ 32) :
    decodeU32BE (encodeU32BE n) = n := by
  simp only [encodeU32BE, decodeU32BE]
  omega

theorem decodeI32BE_encodeU32BE (n : Nat) (h : n < 2 ^ 31) :
    decodeI32BE (encodeU32BE n) = n := by
  rw [decodeI32BE, decodeU32BE_encodeU32BE n (by omega), if_pos h]

theorem packFrameLen_lt (n : Nat) (h : n < 2 ^ 31) :
    packFrameLen n = some (encodeU32BE n) := by
  rw [packFrameLen, if_pos h]

theorem packFrameLen_ge (n : Nat) (h : 2 ^ 31 ≤ n) :
    packFrameLen n = none := by
  rw [packFrameLen, if_neg (not_lt.mpr h)]

/-- The write-side state of a buffering transport: the WriteBuffer contents
(`wbuf`, for `self.__wbuf`) and the trace of byte strings handed to the
underlying channel's `write` so far (`sends`). -/
structure WState where
  wbuf : List Nat
  sends : List (List Nat)
deriving DecidableEq

/-- Outcome of attempting `self.__wbuf.write(buf)`: the call can in
principle raise, so `app` yields the result of the attempt together with
the buffer contents it leaves behind.  `appOk` is the normal, non-raising
behaviour: plain append. -/
def appOk (w buf : List Nat) : Except TErr Unit × List Nat := (.ok (), w ++ buf)

/-- A concretely failing buffer append: it appends the first byte and then
raises. -/
def appFail (w buf : List Nat) : Except TErr Unit × List Nat :=
  (.error .raised, w ++ buf.take 1)

/-- `TBufferedTransport.write`: append inside try/except; on any failure the
WriteBuffer is reset to empty before the exception propagates.  Performs no
underlying I/O (`sends` is untouched). -/
def bufferedWrite (app : List Nat → List Nat → Except TErr Unit × List Nat)
    (st : WState) (buf : List Nat) : Except TErr Unit × WState :=
  match app st.wbuf buf with
  | (.ok _, w2) => (.ok (), { st with wbuf := w2 })
  | (.error e, _) => (.error e, { st with wbuf := [] })

/-- `TFramedTransport.write`: plain append to the WriteBuffer, no exception
handling and no underlying I/O. -/
def framedWrite (app : List Nat → List Nat → Except TErr Unit × List Nat)
    (st : WState) (buf : List Nat) : Except TErr Unit × WState :=
  match app st.wbuf buf with
  | (r, w2) => (r, { st with wbuf := w2 })

/-- `TSaslClientTransport.write`: plain append to the WriteBuffer, no
exception handling and no underlying I/O. -/
def saslWrite (app : List Nat → List Nat → Except TErr Unit × List Nat)
    (st : WState) (buf : List Nat) : Except TErr Unit × WState :=
  match app st.wbuf buf with
  | (r, w2) => (r, { st with wbuf := w2 })

/-- `TBufferedTransport.flush`: take the WriteBuffer contents, reset the
WriteBuffer BEFORE the underlying write, then hand the bytes to the
underlying channel in one `write` call; `sendOk` says whether that
underlying call succeeds. -/
def bufferedFlush (sendOk : Bool) (st : WState) : Except TErr Unit × WState :=
  let out := st.wbuf
  if sendOk then (.ok (), { wbuf := [], sends := st.sends ++ [out] })
  else (.error .sendFail, { wbuf := [], sends := st.sends ++ [out] })

/-- `TFramedTransport.flush`: take the WriteBuffer contents, reset the
WriteBuffer BEFORE packing and writing, then send `pack("!i", wsz) + wout`
as one underlying write.  When `wsz` does not fit the signed 32-bit format,
`pack` raises `struct.error` (after the buffer was already reset) and
nothing is sent. -/
def framedFlush (sendOk : Bool) (st : WState) : Except TErr Unit × WState :=
  let wout := st.wbuf
  match packFrameLen wout.length with
  | none => (.error .structError, { wbuf := [], sends := st.sends })
  | some hdr =>
    if sendOk then (.ok (), { wbuf := [], sends := st.sends ++ [hdr ++ wout] })
    else (.error .sendFail, { wbuf := [], sends := st.sends ++ [hdr ++ wout] })

/-- `TSaslClientTransport.flush`: wrap the buffered bytes through the
security engine, send one `[length][wrapped]` frame, and only AFTER a
successful send reset the WriteBuffer (`self.__wbuf = BytesIO()` is the
last statement of the method, so a failing send leaves `wbuf` intact). -/
def saslFlush (wrap : List Nat → List Nat) (sendOk : Bool) (st : WState) :
    Except TErr Unit × WState :=
  let encoded := wrap st.wbuf
  match packFrameLen encoded.length with
  | none => (.error .structError, st)
  | some hdr =>
    if sendOk then (.ok (), { wbuf := [], sends := st.sends ++ [hdr ++ encoded] })
    else (.error .sendFail, { st with sends := st.sends ++ [hdr ++ encoded] })

/-- The read-side state of a wrapping transport: the unread remainder of the
ReadBuffer (`rbuf`, the bytes after the `BytesIO` cursor) and the bytes the
underlying channel still has to deliver (`stream`). -/
structure TState where
  rbuf : List Nat
  stream : List Nat
deriving DecidableEq

/-- `TBufferedTransport.read(sz)` with read-window `W` (`self.__rbuf_size`):
serve from the ReadBuffer when it yields at least one byte; otherwise
replace the ReadBuffer by one underlying fetch of `max sz W` bytes and
serve from the fresh buffer.  The third component is the list of sizes of
the underlying read requests issued during the call. -/
def bufferedRead (W : Nat) (st : TState) (sz : Nat) :
    List Nat × TState × List Nat :=
  let ret := st.rbuf.take sz
  if ret.length ≠ 0 then (ret, { st with rbuf := st.rbuf.drop sz }, [])
  else
    let fetched := (streamRead st.stream (max sz W)).1
    (fetched.take sz,
     { rbuf := fetched.drop sz, stream := (streamRead st.stream (max sz W)).2 },
     [max sz W])

/-- `TFramedTransport.readFrame`: read a 4-byte header with `readAll`,
decode it with the SIGNED format `"!i"`, then read that many payload bytes
with `readAll`.  Returns the new ReadBuffer contents and the remaining
channel bytes. -/
def readFrame (s : List Nat) : Except TErr (List Nat × List Nat) :=
  match readAll streamRead s 4 with
  | .error e => .error e
  | .ok (buff, s1) =>
    match readAll streamRead s1 (decodeI32BE buff) with
    | .error e => .error e
    | .ok (payload, s2) => .ok (payload, s2)

/-- `TFramedTransport.read(sz)`: serve from the ReadBuffer when it yields at
least one byte; otherwise read one whole frame into a fresh ReadBuffer and
serve from it. -/
def framedRead (st : TState) (sz : Nat) : Except TErr (List Nat × TState) :=
  let ret := st.rbuf.take sz
  if ret.length ≠ 0 then .ok (ret, { st with rbuf := st.rbuf.drop sz })
  else
    match readFrame st.stream with
    | .error e => .error e
    | .ok (payload, s2) =>
      .ok (payload.take sz, { rbuf := payload.drop sz, stream := s2 })

/-- `TSaslClientTransport._read_frame`: like `readFrame`, but the payload is
passed through the security engine's `unwrap` transform before becoming the
new ReadBuffer. -/
def saslReadFrame (unwrap : List Nat → List Nat) (s : List Nat) :
    Except TErr (List Nat × List Nat) :=
  match readAll streamRead s 4 with
  | .error e => .error e
  | .ok (header, s1) =>
    match readAll streamRead s1 (decodeI32BE header) with
    | .error e => .error e
    | .ok (encoded, s2) => .ok (unwrap encoded, s2)

/-- `TSaslClientTransport.read(sz)`: serve from the ReadBuffer when it
yields at least one byte; otherwise read and unwrap one frame into a fresh
ReadBuffer and serve from it. -/
def saslRead (unwrap : List Nat → List Nat) (st : TState) (sz : Nat) :
    Except TErr (List Nat × TState) :=
  let ret := st.rbuf.take sz
  if ret.length ≠ 0 then .ok (ret, { st with rbuf := st.rbuf.drop sz })
  else
    match saslReadFrame unwrap st.stream with
    | .error e => .error e
    | .ok (payload, s2) =>
      .ok (payload.take sz, { rbuf := payload.drop sz, stream := s2 })

/-- Closed-form behaviour of `readFrame` on a channel holding `s`: it needs
4 header bytes, decodes them as a signed 32-bit integer `sz`, and then needs
`sz` further bytes (none when `sz` is non-positive). -/
theorem readFrame_spec (s : List Nat) :
    readFrame s =
      if 4 ≤ s.length then
        if decodeI32BE (s.take 4) ≤ ((s.drop 4).length : Int) then
          .ok ((s.drop 4).take (decodeI32BE (s.take 4)).toNat,
               (s.drop 4).drop (decodeI32BE (s.take 4)).toNat)
        else .error .eof
      else .error .eof := by
  unfold readFrame
  rw [readAll_stream_spec]
  by_cases h4 : 4 ≤ s.length
  · have h4i : (4 : Int) ≤ (s.length : Int) := by exact_mod_cast h4
    rw [if_pos h4i, if_pos h4]
    have ht : (4 : Int).toNat = 4 := rfl
    rw [ht]
    dsimp only
    rw [readAll_stream_spec]
    by_cases hsz : decodeI32BE (s.take 4) ≤ ((s.drop 4).length : Int)
    · rw [if_pos hsz]
    · rw [if_neg hsz]
  · have h4i : ¬(4 : Int) ≤ (s.length : Int) := by exact_mod_cast h4
    rw [if_neg h4i, if_neg h4]

theorem readFrame_consumes (s p s2 : List Nat)
    (h : readFrame s = .ok (p, s2)) : s2.length + 4 ≤ s.length := by
  rw [readFrame_spec] at h
  split at h
  · split at h
    · rename_i h4 hsz
      simp only [Except.ok.injEq, Prod.mk.injEq] at h
      rw [← h.2]
      simp only [List.length_drop]
      omega
    · exact absurd h (by simp)
  · exact absurd h (by simp)

theorem readFrame_error (s : List Nat) (e : TErr)
    (h : readFrame s = .error e) : e = .eof := by
  rw [readFrame_spec] at h
  split at h
  · split at h
    · exact absurd h (by simp)
    · exact (Except.error.inj h).symm
  · exact (Except.error.inj h).symm

/-- Closed-form behaviour of `_read_frame`: as `readFrame` but with the
payload passed through `unwrap`. -/
theorem saslReadFrame_spec (unwrap : List Nat → List Nat) (s : List Nat) :
    saslReadFrame unwrap s =
      if 4 ≤ s.length then
        if decodeI32BE (s.take 4) ≤ ((s.drop 4).length : Int) then
          .ok (unwrap ((s.drop 4).take (decodeI32BE (s.take 4)).toNat),
               (s.drop 4).drop (decodeI32BE (s.take 4)).toNat)
        else .error .eof
      else .error .eof := by
  unfold saslReadFrame
  rw [readAll_stream_spec]
  by_cases h4 : 4 ≤ s.length
  · have h4i : (4 : Int) ≤ (s.length : Int) := by exact_mod_cast h4
    rw [if_pos h4i, if_pos h4]
    have ht : (4 : Int).toNat = 4 := rfl
    rw [ht]
    dsimp only
    rw [readAll_stream_spec]
    by_cases hsz : decodeI32BE (s.take 4) ≤ ((s.drop 4).length : Int)
    · rw [if_pos hsz, if_pos hsz]
    · rw [if_neg hsz, if_neg hsz]
  · have h4i : ¬(4 : Int) ≤ (s.length : Int) := by exact_mod_cast h4
    rw [if_neg h4i, if_neg h4]

theorem saslReadFrame_consumes (unwrap : List Nat → List Nat)
    (s p s2 : List Nat) (h : saslReadFrame unwrap s = .ok (p, s2)) :
    s2.length + 4 ≤ s.length := by
  rw [saslReadFrame_spec] at h
  split at h
  · split at h
    · rename_i h4 hsz
      simp only [Except.ok.injEq, Prod.mk.injEq] at h
      rw [← h.2]
      simp only [List.length_drop]
      omega
    · exact absurd h (by simp)
  · exact absurd h (by simp)

theorem saslReadFrame_error (unwrap : List Nat → List Nat) (s : List Nat)
    (e : TErr) (h : saslReadFrame unwrap s = .error e) : e = .eof := by
  rw [saslReadFrame_spec] at h
  split at h
  · split at h
    · exact absurd h (by simp)
    · exact (Except.error.inj h).symm
  · exact (Except.error.inj h).symm

/-- `TBufferedTransport.cstringio_refill(partialread, reqlen)`: when
`reqlen < rbuf_size` first attempt one bulk read of `rbuf_size` bytes; then,
if still short of `reqlen`, read the exact shortfall with `readAll`.
Returns the new ReadBuffer contents and the remaining channel bytes. -/
def bufferedRefill (W : Nat) (partialread : List Nat) (reqlen : Nat)
    (s : List Nat) : Except TErr (List Nat × List Nat) :=
  let step := if reqlen < W
    then (partialread ++ (streamRead s W).1, (streamRead s W).2)
    else (partialread, s)
  if step.1.length < reqlen then
    match readAll streamRead step.2 ((reqlen : Int) - step.1.length) with
    | .error e => .error e
    | .ok (more, s2) => .ok (step.1 ++ more, s2)
  else .ok (step.1, step.2)

/-- `TFramedTransport.cstringio_refill(prefix, reqlen)`: read whole frames,
appending each frame's payload, until at least `reqlen` bytes have
accumulated. -/
def framedRefill (pfx : List Nat) (reqlen : Nat) (s : List Nat) :
    Except TErr (List Nat × List Nat) :=
  if reqlen ≤ pfx.length then .ok (pfx, s)
  else
    match h : readFrame s with
    | .error e => .error e
    | .ok (payload, s2) => framedRefill (pfx ++ payload) reqlen s2
termination_by s.length
decreasing_by
  have := readFrame_consumes s payload s2 h
  omega

/-- `TSaslClientTransport.cstringio_refill(prefix, reqlen)`: as the framed
one, but reading unwrap-frames. -/
def saslRefill (unwrap : List Nat → List Nat) (pfx : List Nat) (reqlen : Nat)
    (s : List Nat) : Except TErr (List Nat × List Nat) :=
  if reqlen ≤ pfx.length then .ok (pfx, s)
  else
    match h : saslReadFrame unwrap s with
    | .error e => .error e
    | .ok (payload, s2) => saslRefill unwrap (pfx ++ payload) reqlen s2
termination_by s.length
decreasing_by
  have := saslReadFrame_consumes unwrap s payload s2 h
  omega

/-- `TMemoryBuffer.cstringio_refill`: only one shot at reading — it
unconditionally raises `EOFError`. -/
def memRefill (partialread : List Nat) (reqlen : Nat) :
    Except TErr (List Nat) :=
  .error .eof

/-- `TSaslClientTransport.recv_sasl_msg`: read a 5-byte header with
`readAll`, unpack it with `">BI"` (status byte, big-endian uint32 length),
then read the payload when the length is positive.  Returns
`(status, payload, remaining channel bytes)`. -/
def recvSaslMsg (s : List Nat) : Except TErr (Nat × List Nat × List Nat) :=
  match readAll streamRead s 5 with
  | .error e => .error e
  | .ok (header, s1) =>
    if 0 < decodeU32BE (header.drop 1) then
      match readAll streamRead s1 (decodeU32BE (header.drop 1) : Int) with
      | .error e => .error e
      | .ok (payload, s2) => .ok (header.headD 0, payload, s2)
    else .ok (header.headD 0, [], s1)

/-- Closed-form behaviour of `recv_sasl_msg` on a channel holding `s`. -/
theorem recvSaslMsg_spec (s : List Nat) :
    recvSaslMsg s =
      if 5 ≤ s.length then
        if 0 < decodeU32BE ((s.take 5).drop 1) then
          if (decodeU32BE ((s.take 5).drop 1) : Int) ≤ ((s.drop 5).length : Int) then
            .ok ((s.take 5).headD 0,
                 (s.drop 5).take (decodeU32BE ((s.take 5).drop 1)),
                 (s.drop 5).drop (decodeU32BE ((s.take 5).drop 1)))
          else .error .eof
        else .ok ((s.take 5).headD 0, [], s.drop 5)
      else .error .eof := by
  unfold recvSaslMsg
  rw [readAll_stream_spec]
  by_cases h5 : 5 ≤ s.length
  · have h5i : (5 : Int) ≤ (s.length : Int) := by exact_mod_cast h5
    rw [if_pos h5i, if_pos h5]
    have ht : (5 : Int).toNat = 5 := rfl
    rw [ht]
    dsimp only
    by_cases hlen : 0 < decodeU32BE ((s.take 5).drop 1)
    · rw [if_pos hlen, if_pos hlen]
      rw [readAll_stream_spec]
      by_cases hav : (decodeU32BE ((s.take 5).drop 1) : Int) ≤ ((s.drop 5).length : Int)
      · rw [if_pos hav, if_pos hav]
        simp
      · rw [if_neg hav, if_neg hav]
    · rw [if_neg hlen, if_neg hlen]
  · have h5i : ¬(5 : Int) ≤ (s.length : Int) := by exact_mod_cast h5
    rw [if_neg h5i, if_neg h5]

theorem recvSaslMsg_consumes (s : List Nat) (status : Nat)
    (pl s2 : List Nat) (h : recvSaslMsg s = .ok (status, pl, s2)) :
    s2.length + 5 ≤ s.length := by
  rw [recvSaslMsg_spec] at h
  split at h
  · split at h
    · split at h
      · rename_i h5 hlen hav
        simp only [Except.ok.injEq, Prod.mk.injEq] at h
        rw [← h.2.2]
        simp only [List.length_drop]
        omega
      · exact absurd h (by simp)
    · rename_i h5 hlen
      simp only [Except.ok.injEq, Prod.mk.injEq] at h
      rw [← h.2.2]
      simp only [List.length_drop]
      omega
  · exact absurd h (by simp)

/-- The `while True` receive loop of `TSaslClientTransport.open`, over an
incoming channel holding `s`.  `proc` and `compl` model the external
security engine (`sasl.process` and `sasl.complete`), `e` its current
state; `sent` accumulates the `(status, body)` messages handed to
`send_sasl_msg` so far and is returned in every outcome.  On status OK (2)
the engine processes the challenge and an OK message with its response is
sent; on status COMPLETE (5) the loop either finishes or, when the engine
does not report completion, raises NOT_OPEN; on any other status it raises
NOT_OPEN at once, sending nothing further. -/
def saslOpenLoop {ε : Type} (proc : ε → Option (List Nat) → List Nat × ε)
    (compl : ε → Bool) (e : ε) (s : List Nat)
    (sent : List (Nat × List Nat)) :
    Except TErr (ε × List Nat) × List (Nat × List Nat) :=
  match h : recvSaslMsg s with
  | .error err => (.error err, sent)
  | .ok (status, challenge, s2) =>
    if status = 2 then
      saslOpenLoop proc compl (proc e (some challenge)).2 s2
        (sent ++ [(2, (proc e (some challenge)).1)])
    else if status = 5 then
      if compl e then (.ok (e, s2), sent)
      else
        (.error (.transport 1
          "The server erroneously indicated that SASL negotiation was complete"),
         sent)
    else
      (.error (.transport 1
        ("Bad SASL negotiation status: " ++ toString status ++ " (" ++
          toString challenge ++ ")")),
       sent)
termination_by s.length
decreasing_by
  have := recvSaslMsg_consumes s status challenge s2 h
  omega

/-- The handshake of `TSaslClientTransport.open`: send START (1) with the
mechanism name, send OK (2) with the engine's initial response
(`sasl.process()` with no challenge), then run the receive loop. -/
def saslOpen {ε : Type} (proc : ε → Option (List Nat) → List Nat × ε)
    (compl : ε → Bool) (e : ε) (mech : List Nat) (s : List Nat) :
    Except TErr (ε × List Nat) × List (Nat × List Nat) :=
  saslOpenLoop proc compl (proc e none).2 s [(1, mech), (2, (proc e none).1)]

theorem framedFlush_small (sendOk : Bool) (st : WState)
    (h : st.wbuf.length < 2 ^ 31) :
    framedFlush sendOk st =
      (if sendOk then .ok () else .error .sendFail,
       ⟨[], st.sends ++ [encodeU32BE st.wbuf.length ++ st.wbuf]⟩) := by
  unfold framedFlush
  dsimp only
  rw [packFrameLen_lt _ h]
  cases sendOk <;> rfl

theorem framedFlush_overflow (sendOk : Bool) (st : WState)
    (h : 2 ^ 31 ≤ st.wbuf.length) :
    framedFlush sendOk st = (.error .structError, ⟨[], st.sends⟩) := by
  unfold framedFlush
  dsimp only
  rw [packFrameLen_ge _ h]

theorem readFrame_encode (P rest : List Nat) (h : P.length < 2 ^ 31) :
    readFrame (encodeU32BE P.length ++ (P ++ rest)) = .ok (P, rest) := by
  have h4 : (encodeU32BE P.length).length = 4 := rfl
  have htake : (encodeU32BE P.length ++ (P ++ rest)).take 4
      = encodeU32BE P.length := by
    rw [← h4, List.take_left]
  have hdrop : (encodeU32BE P.length ++ (P ++ rest)).drop 4 = P ++ rest := by
    rw [← h4, List.drop_left]
  rw [readFrame_spec, htake, hdrop, if_pos, decodeI32BE_encodeU32BE _ h]
  · rw [if_pos]
    · have htP : (P ++ rest).take ((P.length : Int)).toNat = P := by
        simp [List.take_left]
      have hdP : (P ++ rest).drop ((P.length : Int)).toNat = rest := by
        simp [List.drop_left]
      rw [htP, hdP]
    · rw [List.length_append]
      push_cast
      omega
  · rw [List.length_append, h4]
    omega

theorem framedRefill_props :
    ∀ (n : Nat) (s pfx : List Nat) (reqlen : Nat), s.length = n →
      (∀ b s2, framedRefill pfx reqlen s = .ok (b, s2) →
        b.take pfx.length = pfx ∧ reqlen ≤ b.length)
      ∧ (∀ e, framedRefill pfx reqlen s = .error e → e = .eof) := by
  intro n
  induction n using Nat.strong_induction_on with
  | _ n ih =>
    intro s pfx reqlen hn
    constructor
    · intro b s2 h
      rw [framedRefill] at h
      split at h
      · rename_i hle
        simp only [Except.ok.injEq, Prod.mk.injEq] at h
        obtain ⟨h1, h2⟩ := h
        subst h1
        exact ⟨List.take_length pfx, hle⟩
      · rename_i hgt
        split at h
        · exact absurd h (by simp)
        · rename_i payload s2x hrf
          have hcons := readFrame_consumes s payload s2x hrf
          have hrest := (ih s2x.length (by omega) s2x (pfx ++ payload) reqlen rfl).1
            b s2 h
          obtain ⟨htake, hlen⟩ := hrest
          refine ⟨?_, hlen⟩
          have hmin : min pfx.length (pfx ++ payload).length = pfx.length := by
            simp [List.length_append]
          have e1 : (b.take ((pfx ++ payload).length)).take pfx.length = pfx := by
            rw [htake]
            exact List.take_left pfx payload
          rw [List.take_take, hmin] at e1
          exact e1
    · intro e h
      rw [framedRefill] at h
      split at h
      · exact absurd h (by simp)
      · split at h
        · rename_i ex hrf
          have := readFrame_error s ex hrf
          rw [← (Except.error.inj h)]
          exact this
        · rename_i payload s2x hrf
          have hcons := readFrame_consumes s payload s2x hrf
          exact (ih s2x.length (by omega) s2x (pfx ++ payload) reqlen rfl).2 e h

theorem saslRefill_props (unwrap : List Nat → List Nat) :
    ∀ (n : Nat) (s pfx : List Nat) (reqlen : Nat), s.length = n →
      (∀ b s2, saslRefill unwrap pfx reqlen s = .ok (b, s2) →
        b.take pfx.length = pfx ∧ reqlen ≤ b.length)
      ∧ (∀ e, saslRefill unwrap pfx reqlen s = .error e → e = .eof) := by
  intro n
  induction n using Nat.strong_induction_on with
  | _ n ih =>
    intro s pfx reqlen hn
    constructor
    · intro b s2 h
      rw [saslRefill] at h
      split at h
      · rename_i hle
        simp only [Except.ok.injEq, Prod.mk.injEq] at h
        obtain ⟨h1, h2⟩ := h
        subst h1
        exact ⟨List.take_length pfx, hle⟩
      · rename_i hgt
        split at h
        · exact absurd h (by simp)
        · rename_i payload s2x hrf
          have hcons := saslReadFrame_consumes unwrap s payload s2x hrf
          have hrest := (ih s2x.length (by omega) s2x (pfx ++ payload) reqlen rfl).1
            b s2 h
          obtain ⟨htake, hlen⟩ := hrest
          refine ⟨?_, hlen⟩
          have hmin : min pfx.length (pfx ++ payload).length = pfx.length := by
            simp [List.length_append]
          have e1 : (b.take ((pfx ++ payload).length)).take pfx.length = pfx := by
            rw [htake]
            exact List.take_left pfx payload
          rw [List.take_take, hmin] at e1
          exact e1
    · intro e h
      rw [saslRefill] at h
      split at h
      · exact absurd h (by simp)
      · split at h
        · rename_i ex hrf
          have := saslReadFrame_error unwrap s ex hrf
          rw [← (Except.error.inj h)]
          exact this
        · rename_i payload s2x hrf
          have hcons := saslReadFrame_consumes unwrap s payload s2x hrf
          exact (ih s2x.length (by omega) s2x (pfx ++ payload) reqlen rfl).2 e h

theorem bufferedRefill_ok_props (W : Nat) (partialread : List Nat)
    (reqlen : Nat) (s b s2 : List Nat)
    (h : bufferedRefill W partialread reqlen s = .ok (b, s2)) :
    b.take partialread.length = partialread ∧ reqlen ≤ b.length := by
  rw [bufferedRefill] at h
  by_cases hW : reqlen < W
  · simp only [if_pos hW, streamRead] at h
    by_cases hshort : (partialread ++ s.take W).length < reqlen
    · rw [if_pos hshort, readAll_stream_spec] at h
      by_cases hav : (reqlen : Int) - ((partialread ++ s.take W).length : Int)
          ≤ (((s.drop W).length : Int))
      · rw [if_pos hav] at h
        dsimp only at h
        simp only [Except.ok.injEq, Prod.mk.injEq] at h
        obtain ⟨h1, h2⟩ := h
        subst h1
        constructor
        · rw [List.append_assoc]
          exact List.take_left _ _
        · simp only [List.length_append, List.length_take, List.length_drop]
            at hshort hav ⊢
          omega
      · rw [if_neg hav] at h
        exact absurd h (by simp)
    · rw [if_neg hshort] at h
      simp only [Except.ok.injEq, Prod.mk.injEq] at h
      obtain ⟨h1, h2⟩ := h
      subst h1
      exact ⟨List.take_left _ _, by omega⟩
  · simp only [if_neg hW] at h
    by_cases hshort : partialread.length < reqlen
    · rw [if_pos hshort, readAll_stream_spec] at h
      by_cases hav : (reqlen : Int) - (partialread.length : Int)
          ≤ ((s.length : Int))
      · rw [if_pos hav] at h
        dsimp only at h
        simp only [Except.ok.injEq, Prod.mk.injEq] at h
        obtain ⟨h1, h2⟩ := h
        subst h1
        constructor
        · exact List.take_left _ _
        · simp only [List.length_append, List.length_take] at hav ⊢
          omega
      · rw [if_neg hav] at h
        exact absurd h (by simp)
    · rw [if_neg hshort] at h
      simp only [Except.ok.injEq, Prod.mk.injEq] at h
      obtain ⟨h1, h2⟩ := h
      subst h1
      exact ⟨List.take_length partialread, by omega⟩

theorem bufferedRefill_error_props (W : Nat) (partialread : List Nat)
    (reqlen : Nat) (s : List Nat) (e : TErr)
    (h : bufferedRefill W partialread reqlen s = .error e) : e = .eof := by
  rw [bufferedRefill] at h
  by_cases hW : reqlen < W
  · simp only [if_pos hW, streamRead] at h
    by_cases hshort : (partialread ++ s.take W).length < reqlen
    · rw [if_pos hshort, readAll_stream_spec] at h
      by_cases hav : (reqlen : Int) - ((partialread ++ s.take W).length : Int)
          ≤ (((s.drop W).length : Int))
      · rw [if_pos hav] at h
        exact absurd h (by simp)
      · rw [if_neg hav] at h
        exact (Except.error.inj h).symm
    · rw [if_neg hshort] at h
      exact absurd h (by simp)
  · simp only [if_neg hW] at h
    by_cases hshort : partialread.length < reqlen
    · rw [if_pos hshort, readAll_stream_spec] at h
      by_cases hav : (reqlen : Int) - (partialread.length : Int)
          ≤ ((s.length : Int))
      · rw [if_pos hav] at h
        exact absurd h (by simp)
      · rw [if_neg hav] at h
        exact (Except.error.inj h).symm
    · rw [if_neg hshort] at h
      exact absurd h (by simp)

/-- C1: the generic `readAll(n)` (for `n ≥ 0`) either returns exactly the
`n` bytes the underlying `read` calls yielded, in order, or — as soon as a
`read` call returns 0 bytes before `n` bytes have accumulated — raises the
end-of-stream error `EOFError`; it never silently returns fewer bytes.
Part 1: over any underlying `read` that returns at most what was asked, an
`ok` result has exactly `n` bytes.  Part 2: the only error `readAll` can
raise is end-of-stream.  Parts 3 and 4: over a channel holding `s`, the
result is exactly the first `n` bytes of `s` in order when they exist, and
the end-of-stream error when `s` is exhausted first. -/
theorem c1_readAll_exact_or_eof :
    (∀ (σ : Type) (read : σ → Nat → List Nat × σ),
      (∀ t k, ((read t k).1).length ≤ k) →
      ∀ (s : σ) (n : Nat) (b : List Nat) (s2 : σ),
        readAll read s (n : Int) = .ok (b, s2) → b.length = n)
    ∧ (∀ (σ : Type) (read : σ → Nat → List Nat × σ) (s : σ) (sz : Int)
        (e : TErr), readAll read s sz = .error e → e = .eof)
    ∧ (∀ (s : List Nat) (n : Nat), n ≤ s.length →
        readAll streamRead s (n : Int) = .ok (s.take n, s.drop n))
    ∧ (∀ (s : List Nat) (n : Nat), s.length < n →
        readAll streamRead s (n : Int) = .error .eof) := by
  refine ⟨?_, ?_, ?_, ?_⟩
  · intro σ read hb s n b s2 h
    have := readAll_ok_length read hb s (n : Int) b s2 h
    simpa using this
  · intro σ read s sz e h
    exact readAll_error read s sz e h
  · intro s n hn
    rw [readAll_stream_spec, if_pos (by exact_mod_cast hn)]
    simp
  · intro s n hn
    rw [readAll_stream_spec, if_neg (by exact_mod_cast not_le.mpr hn)]

theorem c1_witness :
    readAll streamRead ([1, 2, 3] : List Nat) ((2 : Nat) : Int)
        = .ok ([1, 2], [3])
    ∧ readAll streamRead ([1] : List Nat) ((3 : Nat) : Int) = .error .eof :=
  ⟨c1_readAll_exact_or_eof.2.2.1 [1, 2, 3] 2 (by decide),
   c1_readAll_exact_or_eof.2.2.2 [1] 3 (by decide)⟩

/-- C10: for `sz ≤ 0`, `readAll(sz)` makes no underlying read call — the
result is the empty byte string with the channel state untouched, for every
underlying `read` — and consequently `readFrame`, when the 4-byte header
decodes (signed big-endian) to a negative value, raises no NEGATIVE_SIZE or
other error and installs an empty ReadBuffer, consuming only the header. -/
theorem c10_nonpositive_sizes :
    (∀ (σ : Type) (read : σ → Nat → List Nat × σ) (s : σ) (sz : Int),
      sz ≤ 0 → readAll read s sz = .ok ([], s))
    ∧ (∀ s : List Nat, 4 ≤ s.length → decodeI32BE (s.take 4) < 0 →
        readFrame s = .ok ([], s.drop 4)) := by
  constructor
  · intro σ read s sz h
    exact readAll_nonpos read s sz h
  · intro s h4 hneg
    rw [readFrame_spec, if_pos h4,
      if_pos (le_trans (le_of_lt hneg) (Int.natCast_nonneg _)),
      Int.toNat_of_nonpos (le_of_lt hneg)]
    simp

theorem c10_witness :
    readAll streamRead ([5, 6] : List Nat) (-3) = .ok ([], [5, 6])
    ∧ readFrame [255, 255, 255, 255, 9] = .ok ([], [9]) :=
  ⟨c10_nonpositive_sizes.1 (List Nat) streamRead [5, 6] (-3) (by decide),
   c10_nonpositive_sizes.2 [255, 255, 255, 255, 9] (by decide) (by decide)⟩

/-- C5 counterexample: the length header is NOT interpreted as an unsigned
32-bit integer.  Reading a frame whose 4-byte header is FF FF FF FF
(uint32 value 4294967295) succeeds with an EMPTY payload — the header,
unpacked with the signed format `"!i"`, yields -1 — instead of the frame
having 4294967295 payload bytes as the uint32 reading requires. -/
theorem c5_counterexample :
    readFrame [255, 255, 255, 255] = .ok ([], [])
    ∧ decodeU32BE (List.take 4 [255, 255, 255, 255]) = 4294967295
    ∧ decodeI32BE (List.take 4 [255, 255, 255, 255]) = -1
    ∧ ([] : List Nat).length ≠ decodeU32BE (List.take 4 [255, 255, 255, 255]) := by
  refine ⟨?_, by decide, by decide, by decide⟩
  rw [readFrame_spec]
  rfl

/-- C5 (amended): the frame length header is exactly 4 bytes, network byte
order, and encodes only the payload length, but as a SIGNED 32-bit integer
(`"!i"`), not unsigned: flush emits a 4-byte big-endian header holding the
payload length and fails with `struct.error` for payload lengths of `2^31`
or more; on read the 4 header bytes are decoded as signed int32 `sz` and
the installed payload has `max(sz, 0)` bytes. -/
theorem c5_frame_header_signed :
    (∀ st : WState, st.wbuf.length < 2 ^ 31 →
      framedFlush true st =
        (.ok (), ⟨[], st.sends ++ [encodeU32BE st.wbuf.length ++ st.wbuf]⟩)
      ∧ (encodeU32BE st.wbuf.length).length = 4
      ∧ decodeI32BE (encodeU32BE st.wbuf.length) = st.wbuf.length)
    ∧ (∀ st : WState, 2 ^ 31 ≤ st.wbuf.length →
        framedFlush true st = (.error .structError, ⟨[], st.sends⟩))
    ∧ (∀ s p s2 : List Nat, readFrame s = .ok (p, s2) →
        (s.take 4).length = 4
        ∧ (p.length : Int) = max (decodeI32BE (s.take 4)) 0) := by
  refine ⟨?_, ?_, ?_⟩
  · intro st h
    refine ⟨?_, encodeU32BE_length _, decodeI32BE_encodeU32BE _ h⟩
    rw [framedFlush_small true st h]
    rfl
  · intro st h
    exact framedFlush_overflow true st h
  · intro s p s2 h
    rw [readFrame_spec] at h
    split at h
    · rename_i h4
      split at h
      · rename_i hsz
        simp only [Except.ok.injEq, Prod.mk.injEq] at h
        obtain ⟨h1, h2⟩ := h
        constructor
        · rw [List.length_take]
          omega
        · rw [← h1]
          simp only [List.length_take, List.length_drop] at hsz ⊢
          omega
      · exact absurd h (by simp)
    · exact absurd h (by simp)

theorem c5_witness :
    (framedFlush true ⟨[104, 101, 108, 108, 111], []⟩ =
        (.ok (), ⟨[], [[0, 0, 0, 5, 104, 101, 108, 108, 111]]⟩)
      ∧ (encodeU32BE (List.length [104, 101, 108, 108, 111])).length = 4
      ∧ decodeI32BE (encodeU32BE (List.length [104, 101, 108, 108, 111])) =
          List.length [104, 101, 108, 108, 111])
    ∧ framedFlush true ⟨List.replicate (2 ^ 31) 0, []⟩ =
        (.error .structError, ⟨[], []⟩)
    ∧ ((List.take 4 [0, 0, 0, 1, 42]).length = 4
      ∧ ((([42] : List Nat)).length : Int) =
          max (decodeI32BE (List.take 4 [0, 0, 0, 1, 42])) 0) :=
  ⟨c5_frame_header_signed.1 ⟨[104, 101, 108, 108, 111], []⟩ (by decide),
   c5_frame_header_signed.2.1 ⟨List.replicate (2 ^ 31) 0, []⟩
     (by rw [List.length_replicate]),
   c5_frame_header_signed.2.2 [0, 0, 0, 1, 42] [42] []
     (by rw [readFrame_spec]; rfl)⟩

/-- C3 counterexample: the round-trip claim fails at payloads of length
`2^31`: `pack("!i", wsz)` raises `struct.error` for such a length, the
flush fails, and NO on-wire bytes are produced at all (while the buffered
payload has already been discarded). -/
theorem c3_counterexample :
    framedFlush true ⟨List.replicate (2 ^ 31) 0, []⟩ =
      (.error .structError, ⟨[], []⟩) :=
  framedFlush_overflow true ⟨List.replicate (2 ^ 31) 0, []⟩
    (by rw [List.length_replicate])

/-- C3 (amended): for every payload `P` with `len(P) < 2^31`, writing `P`
then flushing a FramedTransport puts exactly the frame
`encodeU32BE (len P) ++ P` on the wire as one send, the on-wire 4-byte
length field decodes to `len(P)`, and a peer FramedTransport over that wire
returns exactly `P` from a read of `len(P)` bytes; concretely,
`write(b"hello")` + `flush()` produces `00 00 00 05 68 65 6C 6C 6F`.
(For `len(P) ≥ 2^31` the flush fails with `struct.error` instead — see the
counterexample.) -/
theorem c3_framed_roundtrip :
    (∀ P : List Nat, P.length < 2 ^ 31 →
      framedFlush true ⟨P, []⟩ = (.ok (), ⟨[], [encodeU32BE P.length ++ P]⟩)
      ∧ decodeU32BE ((encodeU32BE P.length ++ P).take 4) = P.length
      ∧ framedRead ⟨[], encodeU32BE P.length ++ P⟩ P.length
          = .ok (P, ⟨[], []⟩))
    ∧ framedFlush true ⟨[104, 101, 108, 108, 111], []⟩ =
        (.ok (), ⟨[], [[0, 0, 0, 5, 104, 101, 108, 108, 111]]⟩) := by
  constructor
  · intro P hP
    refine ⟨?_, ?_, ?_⟩
    · rw [framedFlush_small true ⟨P, []⟩ hP]
      rfl
    · have h4 : (encodeU32BE P.length).length = 4 := rfl
      rw [← h4, List.take_left, decodeU32BE_encodeU32BE _ (by omega)]
    · have hfr : readFrame (encodeU32BE P.length ++ P) = .ok (P, []) := by
        have := readFrame_encode P [] hP
        rwa [List.append_nil] at this
      rw [framedRead]
      dsimp only
      rw [List.take_nil, if_neg (by simp), hfr]
      simp [List.take_length, List.drop_length]
  · rw [framedFlush_small true _ (by decide)]
    rfl

theorem c3_witness :
    framedFlush true ⟨[7, 8], []⟩ = (.ok (), ⟨[], [[0, 0, 0, 2, 7, 8]]⟩)
    ∧ decodeU32BE (List.take 4 ([0, 0, 0, 2] ++ [7, 8])) = 2
    ∧ framedRead ⟨[], [0, 0, 0, 2, 7, 8]⟩ 2 = .ok ([7, 8], ⟨[], []⟩) := by
  obtain ⟨h1, h2, h3⟩ := c3_framed_roundtrip.1 [7, 8] (by decide)
  exact ⟨h1, h2, h3⟩

/-- C6 counterexample: `read(0)` on a NON-EMPTY ReadBuffer is not served
from the buffer: because `BytesIO.read(0)` returns 0 bytes, the code path
falls through to the refill, issuing one underlying request of
`max(0, 4096) = 4096` bytes and discarding the buffered byte `7`. -/
theorem c6_counterexample :
    bufferedRead 4096 ⟨[7], []⟩ 0 = ([], ⟨[], []⟩, [4096])
    ∧ ([4096] : List Nat) ≠ [] := by
  constructor
  · simp [bufferedRead, streamRead]
  · decide

/-- C6 (amended): `read(sz)` is served from the ReadBuffer exactly when the
buffer read yields at least one byte (buffer non-empty AND `sz ≥ 1`); when
the buffer read yields nothing (empty buffer or `sz = 0`) it triggers
exactly one underlying fetch requesting `max(sz, W)` bytes into a fresh
ReadBuffer and serves up to `sz` bytes from it; concretely, with `W = 4096`
and 10 bytes available, `read(10)` on an empty ReadBuffer issues one
underlying request for 4096 bytes and returns the 10 bytes. -/
theorem c6_buffered_read :
    (∀ (W : Nat) (st : TState) (sz : Nat), (st.rbuf.take sz).length ≠ 0 →
      bufferedRead W st sz = (st.rbuf.take sz, ⟨st.rbuf.drop sz, st.stream⟩, []))
    ∧ (∀ (W : Nat) (st : TState) (sz : Nat), (st.rbuf.take sz).length = 0 →
      bufferedRead W st sz =
        ((st.stream.take (max sz W)).take sz,
         ⟨(st.stream.take (max sz W)).drop sz, st.stream.drop (max sz W)⟩,
         [max sz W]))
    ∧ bufferedRead 4096 ⟨[], [0, 1, 2, 3, 4, 5, 6, 7, 8, 9]⟩ 10 =
        ([0, 1, 2, 3, 4, 5, 6, 7, 8, 9], ⟨[], []⟩, [4096]) := by
  refine ⟨?_, ?_, ?_⟩
  · intro W st sz h
    rw [bufferedRead]
    dsimp only
    rw [if_pos h]
  · intro W st sz h
    rw [bufferedRead]
    dsimp only
    rw [if_neg (by simp [h]), streamRead]
  · simp [bufferedRead, streamRead]

theorem c6_witness :
    bufferedRead 4096 ⟨[1, 2], []⟩ 1 = ([1], ⟨[2], []⟩, [])
    ∧ bufferedRead 3 ⟨[], [9]⟩ 2 = ([9], ⟨[], []⟩, [3]) :=
  ⟨c6_buffered_read.1 4096 ⟨[1, 2], []⟩ 1 (by decide),
   c6_buffered_read.2.1 3 ⟨[], [9]⟩ 2 (by decide)⟩

/-- C9: `read(0)` never serves from the ReadBuffer: since a zero-length
buffer read yields zero bytes, each of `TBufferedTransport.read`,
`TFramedTransport.read` and `TSaslClientTransport.read` with `sz = 0`
triggers a refill that replaces the ReadBuffer — the unread bytes in the
old buffer are discarded — and then returns the empty byte string.  For
the buffered transport the refill is one underlying fetch of `W` bytes;
for the framed and SASL transports it is a (successful) frame read. -/
theorem c9_read_zero_discards :
    (∀ (W : Nat) (st : TState),
      bufferedRead W st 0 = ([], ⟨st.stream.take W, st.stream.drop W⟩, [W]))
    ∧ (∀ (st : TState) (p s2 : List Nat), readFrame st.stream = .ok (p, s2) →
        framedRead st 0 = .ok ([], ⟨p, s2⟩))
    ∧ (∀ (unwrap : List Nat → List Nat) (st : TState) (p s2 : List Nat),
        saslReadFrame unwrap st.stream = .ok (p, s2) →
        saslRead unwrap st 0 = .ok ([], ⟨p, s2⟩)) := by
  refine ⟨?_, ?_, ?_⟩
  · intro W st
    simp [bufferedRead, streamRead]
  · intro st p s2 h
    rw [framedRead]
    rw [List.take_zero, if_neg (by simp), h]
    simp
  · intro unwrap st p s2 h
    rw [saslRead]
    rw [List.take_zero, if_neg (by simp), h]
    simp

theorem c9_witness :
    framedRead ⟨[7], [0, 0, 0, 1, 42]⟩ 0 = .ok ([], ⟨[42], []⟩)
    ∧ saslRead id ⟨[7], [0, 0, 0, 1, 42]⟩ 0 = .ok ([], ⟨[42], []⟩) :=
  ⟨c9_read_zero_discards.2.1 ⟨[7], [0, 0, 0, 1, 42]⟩ [42] []
     (by rw [readFrame_spec]; rfl),
   c9_read_zero_discards.2.2 id ⟨[7], [0, 0, 0, 1, 42]⟩ [42] []
     (by rw [saslReadFrame_spec]; rfl)⟩

/-- C7: every buffer-lease `cstringio_refill(partial, reqlen)` — buffered,
framed, and SASL — either returns a buffer that starts with `partial` and
holds at least `reqlen` bytes in total, or raises the end-of-stream error
`EOFError` (the only error any of them can raise); `TMemoryBuffer`'s
refill unconditionally raises end-of-stream. -/
theorem c7_refill_contract :
    (∀ (W : Nat) (partialread : List Nat) (reqlen : Nat) (s b s2 : List Nat),
      bufferedRefill W partialread reqlen s = .ok (b, s2) →
      b.take partialread.length = partialread ∧ reqlen ≤ b.length)
    ∧ (∀ (W : Nat) (partialread : List Nat) (reqlen : Nat) (s : List Nat)
        (e : TErr), bufferedRefill W partialread reqlen s = .error e → e = .eof)
    ∧ (∀ (pfx : List Nat) (reqlen : Nat) (s b s2 : List Nat),
      framedRefill pfx reqlen s = .ok (b, s2) →
      b.take pfx.length = pfx ∧ reqlen ≤ b.length)
    ∧ (∀ (pfx : List Nat) (reqlen : Nat) (s : List Nat) (e : TErr),
      framedRefill pfx reqlen s = .error e → e = .eof)
    ∧ (∀ (unwrap : List Nat → List Nat) (pfx : List Nat) (reqlen : Nat)
        (s b s2 : List Nat),
      saslRefill unwrap pfx reqlen s = .ok (b, s2) →
      b.take pfx.length = pfx ∧ reqlen ≤ b.length)
    ∧ (∀ (unwrap : List Nat → List Nat) (pfx : List Nat) (reqlen : Nat)
        (s : List Nat) (e : TErr),
      saslRefill unwrap pfx reqlen s = .error e → e = .eof)
    ∧ (∀ (partialread : List Nat) (reqlen : Nat),
      memRefill partialread reqlen = .error .eof) := by
  refine ⟨bufferedRefill_ok_props, bufferedRefill_error_props, ?_, ?_, ?_, ?_,
    fun _ _ => rfl⟩
  · intro pfx reqlen s b s2 h
    exact (framedRefill_props s.length s pfx reqlen rfl).1 b s2 h
  · intro pfx reqlen s e h
    exact (framedRefill_props s.length s pfx reqlen rfl).2 e h
  · intro unwrap pfx reqlen s b s2 h
    exact (saslRefill_props unwrap s.length s pfx reqlen rfl).1 b s2 h
  · intro unwrap pfx reqlen s e h
    exact (saslRefill_props unwrap s.length s pfx reqlen rfl).2 e h

theorem c7_witness :
    (List.take (List.length [1]) [1, 8, 9] = [1] ∧ 2 ≤ List.length [1, 8, 9])
    ∧ (List.take (List.length [5, 6]) [5, 6] = [5, 6]
        ∧ 1 ≤ List.length [5, 6])
    ∧ (List.take (List.length [5, 6]) [5, 6] = [5, 6]
        ∧ 1 ≤ List.length [5, 6])
    ∧ TErr.eof = TErr.eof
    ∧ memRefill [1] 5 = .error .eof :=
  ⟨c7_refill_contract.1 4 [1] 2 [8, 9] [1, 8, 9] []
     (by simp [bufferedRefill, streamRead]),
   c7_refill_contract.2.2.1 [5, 6] 1 [] [5, 6] []
     (by rw [framedRefill, if_pos (by decide)]),
   c7_refill_contract.2.2.2.2.1 id [5, 6] 1 [] [5, 6] []
     (by rw [saslRefill, if_pos (by decide)]),
   c7_refill_contract.2.1 0 [] 1 [] .eof
     (by simp [bufferedRefill, streamRead, readAll_stream_spec]),
   c7_refill_contract.2.2.2.2.2.2 [1] 5⟩

theorem bufferedWrite_sends (app : List Nat → List Nat → Except TErr Unit × List Nat)
    (st : WState) (buf : List Nat) :
    ((bufferedWrite app st buf).2).sends = st.sends := by
  rcases h : app st.wbuf buf with ⟨r, w2⟩
  rw [bufferedWrite, h]
  cases r <;> rfl

theorem framedWrite_sends (app : List Nat → List Nat → Except TErr Unit × List Nat)
    (st : WState) (buf : List Nat) :
    ((framedWrite app st buf).2).sends = st.sends := by
  rcases h : app st.wbuf buf with ⟨r, w2⟩
  rw [framedWrite, h]

theorem saslWrite_sends (app : List Nat → List Nat → Except TErr Unit × List Nat)
    (st : WState) (buf : List Nat) :
    ((saslWrite app st buf).2).sends = st.sends := by
  rcases h : app st.wbuf buf with ⟨r, w2⟩
  rw [saslWrite, h]

/-- C2 counterexample: `TSaslClientTransport.flush` resets its WriteBuffer
only AFTER the underlying send (the reset is the method's last statement):
when the underlying write raises, the buffered byte survives, and a retried
flush hands the identical frame bytes to the underlying write a second
time — the same buffered bytes ARE sent again by a later flush. -/
theorem c2_counterexample :
    (saslFlush id false ⟨[1], []⟩).2.wbuf = [1]
    ∧ (saslFlush id true (saslFlush id false ⟨[1], []⟩).2).2.sends
        = [[0, 0, 0, 1, 1], [0, 0, 0, 1, 1]] := by
  constructor <;> rfl

/-- C2 (amended): for every buffering transport, `write` performs no
underlying I/O; `BufferedTransport.flush` and `FramedTransport.flush` clear
the WriteBuffer before the underlying send is attempted and perform at most
one underlying send per flush, whose content carries the in-order
concatenation of all bytes written since the last flush (for the framed
transport, behind a 4-byte header, and only for buffered lengths below
`2^31`) — hence a send failure never causes the same bytes to be sent
again.  The SASL transport also performs at most one send per flush
(carrying the wrap-transform of the concatenation), but clears its
WriteBuffer only after a SUCCESSFUL send: a failed send leaves the
buffered bytes in place to be sent again by a later flush. -/
theorem c2_flush_discipline :
    (∀ (app : List Nat → List Nat → Except TErr Unit × List Nat)
        (st : WState) (buf : List Nat),
      ((bufferedWrite app st buf).2).sends = st.sends
      ∧ ((framedWrite app st buf).2).sends = st.sends
      ∧ ((saslWrite app st buf).2).sends = st.sends)
    ∧ (∀ (bufs : List (List Nat)) (st : WState),
        (bufs.foldl (fun t b => (bufferedWrite appOk t b).2) st).wbuf
          = st.wbuf ++ bufs.flatten)
    ∧ (∀ (sendOk : Bool) (st : WState),
        (bufferedFlush sendOk st).2.wbuf = []
        ∧ (bufferedFlush sendOk st).2.sends = st.sends ++ [st.wbuf])
    ∧ (∀ (sendOk : Bool) (st : WState),
        (framedFlush sendOk st).2.wbuf = []
        ∧ (st.wbuf.length < 2 ^ 31 →
            (framedFlush sendOk st).2.sends
              = st.sends ++ [encodeU32BE st.wbuf.length ++ st.wbuf]))
    ∧ (∀ (wrap : List Nat → List Nat) (sendOk : Bool) (st : WState),
        (wrap st.wbuf).length < 2 ^ 31 →
        (saslFlush wrap sendOk st).2.sends
          = st.sends ++ [encodeU32BE (wrap st.wbuf).length ++ wrap st.wbuf]
        ∧ (saslFlush wrap true st).2.wbuf = []
        ∧ (saslFlush wrap false st).2.wbuf = st.wbuf) := by
  refine ⟨?_, ?_, ?_, ?_, ?_⟩
  · intro app st buf
    exact ⟨bufferedWrite_sends app st buf, framedWrite_sends app st buf,
      saslWrite_sends app st buf⟩
  · intro bufs
    induction bufs with
    | nil => intro st; simp
    | cons b bs ih =>
      intro st
      rw [List.foldl_cons]
      rw [ih]
      have hw : (bufferedWrite appOk st b).2 = { st with wbuf := st.wbuf ++ b } :=
        rfl
      rw [hw]
      simp [List.append_assoc]
  · intro sendOk st
    cases sendOk <;> exact ⟨rfl, rfl⟩
  · intro sendOk st
    constructor
    · rcases hp : packFrameLen st.wbuf.length with _ | hdr
      · rw [framedFlush]
        rw [hp]
      · rw [framedFlush]
        rw [hp]
        cases sendOk <;> rfl
    · intro h
      rw [framedFlush_small sendOk st h]
  · intro wrap sendOk st h
    have hp := packFrameLen_lt _ h
    refine ⟨?_, ?_, ?_⟩
    · rw [saslFlush]
      rw [hp]
      cases sendOk <;> rfl
    · rw [saslFlush]
      rw [hp]
      rfl
    · rw [saslFlush]
      rw [hp]
      rfl

theorem c2_witness :
    ((framedFlush false ⟨[3], []⟩).2.wbuf = []
      ∧ (framedFlush false ⟨[3], []⟩).2.sends = [] ++ [[0, 0, 0, 1, 3]])
    ∧ ((saslFlush id false ⟨[2], []⟩).2.sends = [] ++ [[0, 0, 0, 1, 2]]
      ∧ (saslFlush id true ⟨[2], []⟩).2.wbuf = []
      ∧ (saslFlush id false ⟨[2], []⟩).2.wbuf = [2]) :=
  ⟨⟨(c2_flush_discipline.2.2.2.1 false ⟨[3], []⟩).1,
    (c2_flush_discipline.2.2.2.1 false ⟨[3], []⟩).2 (by decide)⟩,
   c2_flush_discipline.2.2.2.2 id false ⟨[2], []⟩ (by decide)⟩

/-- C8 counterexample: `TFramedTransport.write` has no exception handler:
when the buffer append fails after partially appending, the WriteBuffer is
NOT reset to empty before the error propagates — here it is left holding
the partially appended byte `1`. -/
theorem c8_counterexample :
    framedWrite appFail ⟨[], []⟩ [1, 2] = (.error .raised, ⟨[1], []⟩)
    ∧ ([1] : List Nat) ≠ [] := ⟨rfl, by decide⟩

/-- C8 (amended): only `TBufferedTransport.write` resets the WriteBuffer to
empty when the append fails, before the error propagates;
`TFramedTransport.write` and `TSaslClientTransport.write` install no
handler, so a failing append leaves the WriteBuffer in whatever state the
failed append produced (partially appended bytes included). -/
theorem c8_write_failure_reset :
    (∀ (app : List Nat → List Nat → Except TErr Unit × List Nat)
        (st : WState) (buf : List Nat) (e : TErr) (w2 : List Nat),
      app st.wbuf buf = (.error e, w2) →
      bufferedWrite app st buf = (.error e, { st with wbuf := [] }))
    ∧ (∀ (app : List Nat → List Nat → Except TErr Unit × List Nat)
        (st : WState) (buf : List Nat) (e : TErr) (w2 : List Nat),
      app st.wbuf buf = (.error e, w2) →
      framedWrite app st buf = (.error e, { st with wbuf := w2 }))
    ∧ (∀ (app : List Nat → List Nat → Except TErr Unit × List Nat)
        (st : WState) (buf : List Nat) (e : TErr) (w2 : List Nat),
      app st.wbuf buf = (.error e, w2) →
      saslWrite app st buf = (.error e, { st with wbuf := w2 })) := by
  refine ⟨?_, ?_, ?_⟩
  · intro app st buf e w2 h
    rw [bufferedWrite, h]
  · intro app st buf e w2 h
    rw [framedWrite, h]
  · intro app st buf e w2 h
    rw [saslWrite, h]

theorem c8_witness :
    bufferedWrite appFail ⟨[5], []⟩ [1, 2] = (.error .raised, ⟨[], []⟩)
    ∧ framedWrite appFail ⟨[5], []⟩ [1, 2] = (.error .raised, ⟨[5, 1], []⟩)
    ∧ saslWrite appFail ⟨[5], []⟩ [1, 2] = (.error .raised, ⟨[5, 1], []⟩) :=
  ⟨c8_write_failure_reset.1 appFail ⟨[5], []⟩ [1, 2] .raised [5, 1] rfl,
   c8_write_failure_reset.2.1 appFail ⟨[5], []⟩ [1, 2] .raised [5, 1] rfl,
   c8_write_failure_reset.2.2 appFail ⟨[5], []⟩ [1, 2] .raised [5, 1] rfl⟩

/-- C4: during the negotiation handshake driven by `open()`, receiving a
status other than OK (2) or COMPLETE (5) — i.e. BAD (3), ERROR (4), or any
unexpected code — raises a NOT_OPEN `TTransportException` with a
descriptive message and performs no further message exchange (the trace of
sent messages is returned unchanged); receiving COMPLETE while the
security engine reports not-complete likewise raises NOT_OPEN with a
descriptive message.  The first two conjuncts quantify over an arbitrary
loop state, so they hold at every step of the handshake; the third shows
the whole `open()` aborting with only the initial START and OK messages
sent when the first reply is bad.  In all cases the result is an error —
no partial-success state is returned. -/
theorem c4_handshake_aborts :
    (∀ (ε : Type) (proc : ε → Option (List Nat) → List Nat × ε)
        (compl : ε → Bool) (e : ε) (s : List Nat)
        (sent : List (Nat × List Nat)) (status : Nat)
        (challenge s2 : List Nat),
      recvSaslMsg s = .ok (status, challenge, s2) → status ≠ 2 → status ≠ 5 →
      saslOpenLoop proc compl e s sent =
        (.error (.transport 1 ("Bad SASL negotiation status: "
            ++ toString status ++ " (" ++ toString challenge ++ ")")),
         sent))
    ∧ (∀ (ε : Type) (proc : ε → Option (List Nat) → List Nat × ε)
        (compl : ε → Bool) (e : ε) (s : List Nat)
        (sent : List (Nat × List Nat)) (challenge s2 : List Nat),
      recvSaslMsg s = .ok (5, challenge, s2) → compl e = false →
      saslOpenLoop proc compl e s sent =
        (.error (.transport 1
          "The server erroneously indicated that SASL negotiation was complete"),
         sent))
    ∧ (∀ (ε : Type) (proc : ε → Option (List Nat) → List Nat × ε)
        (compl : ε → Bool) (e : ε) (mech : List Nat) (s : List Nat)
        (status : Nat) (challenge s2 : List Nat),
      recvSaslMsg s = .ok (status, challenge, s2) → status ≠ 2 → status ≠ 5 →
      saslOpen proc compl e mech s =
        (.error (.transport 1 ("Bad SASL negotiation status: "
            ++ toString status ++ " (" ++ toString challenge ++ ")")),
         [(1, mech), (2, (proc e none).1)])) := by
  refine ⟨?_, ?_, ?_⟩
  · intro ε proc compl e s sent status challenge s2 hrecv h2 h5
    rw [saslOpenLoop]
    split
    · rename_i err herr
      rw [hrecv] at herr
      exact absurd herr (by simp)
    · rename_i status' challenge' s2' hok
      rw [hrecv] at hok
      simp only [Except.ok.injEq, Prod.mk.injEq] at hok
      obtain ⟨hs, hc, hs2⟩ := hok
      subst hs
      subst hc
      rw [if_neg h2, if_neg h5]
  · intro ε proc compl e s sent challenge s2 hrecv hcompl
    rw [saslOpenLoop]
    split
    · rename_i err herr
      rw [hrecv] at herr
      exact absurd herr (by simp)
    · rename_i status' challenge' s2' hok
      rw [hrecv] at hok
      simp only [Except.ok.injEq, Prod.mk.injEq] at hok
      obtain ⟨hs, hc, hs2⟩ := hok
      subst hs
      subst hc
      rw [if_neg (by decide), if_pos (rfl : (5 : Nat) = 5), hcompl]
      rfl
  · intro ε proc compl e mech s status challenge s2 hrecv h2 h5
    rw [saslOpen, saslOpenLoop]
    split
    · rename_i err herr
      rw [hrecv] at herr
      exact absurd herr (by simp)
    · rename_i status' challenge' s2' hok
      rw [hrecv] at hok
      simp only [Except.ok.injEq, Prod.mk.injEq] at hok
      obtain ⟨hs, hc, hs2⟩ := hok
      subst hs
      subst hc
      rw [if_neg h2, if_neg h5]

theorem c4_witness :
    saslOpenLoop (fun (e : Unit) _ => ([], e)) (fun _ => false) () [3, 0, 0, 0, 0]
        [] =
      (.error (.transport 1 ("Bad SASL negotiation status: "
          ++ toString (3 : Nat) ++ " (" ++ toString ([] : List Nat) ++ ")")),
       [])
    ∧ saslOpenLoop (fun (e : Unit) _ => ([], e)) (fun _ => false) ()
        [5, 0, 0, 0, 0] [] =
      (.error (.transport 1
        "The server erroneously indicated that SASL negotiation was complete"),
       [])
    ∧ saslOpen (fun (e : Unit) _ => ([], e)) (fun _ => false) () [71]
        [4, 0, 0, 0, 0] =
      (.error (.transport 1 ("Bad SASL negotiation status: "
          ++ toString (4 : Nat) ++ " (" ++ toString ([] : List Nat) ++ ")")),
       [(1, [71]), (2, [])]) :=
  ⟨c4_handshake_aborts.1 Unit (fun e _ => ([], e)) (fun _ => false) ()
     [3, 0, 0, 0, 0] [] 3 [] [] (by rw [recvSaslMsg_spec]; rfl)
     (by decide) (by decide),
   c4_handshake_aborts.2.1 Unit (fun e _ => ([], e)) (fun _ => false) ()
     [5, 0, 0, 0, 0] [] [] [] (by rw [recvSaslMsg_spec]; rfl) rfl,
   c4_handshake_aborts.2.2 Unit (fun e _ => ([], e)) (fun _ => false) () [71]
     [4, 0, 0, 0, 0] 4 [] [] (by rw [recvSaslMsg_spec]; rfl)
     (by decide) (by decide)⟩
